import Mathlib

/-!
Verification of the retrieval-and-caching core of a RAG + CAG chatbot.

Shallow embedding of the repository's Python sources:
  * `cache/redis_manager.py`  (RedisCacheManager)
  * `core/orchestrator.py`    (Orchestrator)
  * `core/cag_engine.py`      (CAGEngine)
  * `core/rag_engine.py`      (RAGEngine)

Python strings are modelled as Lean `String` (a list of unicode code
points, matching Python's `len`/slicing semantics); all string helpers
below are written with structural recursion over `List Char` so that
concrete executions reduce in the kernel.  Wall-clock time is a `Nat`
measured in hours (the cache TTL unit used by the code).  Scores that
are Python floats are modelled as `ℚ`: every claim proved here is about
ordering, truncation and control flow, never about rounding.
-/

namespace ChatbotCag

/-! ### Python string primitives -/

/-- Whitespace characters stripped by Python's `str.strip()` (the ASCII
ones; the sources only ever produce these). -/
def pyIsSpace (c : Char) : Bool :=
  c = ' ' || c = '\t' || c = '\n' || c = '\r' || c = '\x0b' || c = '\x0c'

/-- Lowercasing of a single character as done by Python's `str.lower()`
on the alphabet that occurs in this repository: ASCII letters plus the
Spanish accented vowels and enye. -/
def pyLowerChar (c : Char) : Char :=
  if c = 'Á' then 'á' else if c = 'É' then 'é' else if c = 'Í' then 'í'
  else if c = 'Ó' then 'ó' else if c = 'Ú' then 'ú' else if c = 'Ñ' then 'ñ'
  else if 'A' ≤ c && c ≤ 'Z' then Char.ofNat (c.toNat + 32) else c

/-- Python `str.lower()`. -/
def pyLower (s : String) : String := ⟨s.data.map pyLowerChar⟩

/-- Strip on a character list: drop whitespace from both ends. -/
def pyStripList (l : List Char) : List Char :=
  ((l.dropWhile pyIsSpace).reverse.dropWhile pyIsSpace).reverse

/-- Python `str.strip()`. -/
def pyStrip (s : String) : String := ⟨pyStripList s.data⟩

/-- Python `len(s)` (number of code points). -/
def pyLen (s : String) : Nat := s.data.length

/-- Python slicing `s[:n]`. -/
def pyTake (n : Nat) (s : String) : String := ⟨s.data.take n⟩

/-- Does the first list occur at the head of the second? -/
def leadsWith : List Char → List Char → Bool
  | [], _ => true
  | _ :: _, [] => false
  | a :: as, b :: bs => a == b && leadsWith as bs

/-- Does `sub` occur contiguously inside `l`? -/
def occursIn (sub : List Char) : List Char → Bool
  | [] => sub.isEmpty
  | b :: t => leadsWith sub (b :: t) || occursIn sub t

/-- Python substring test `sub in s`. -/
def strContains (s sub : String) : Bool := occursIn sub.data s.data

/-- Python `any(p in s for p in phrases)`. -/
def containsAny (s : String) (phrases : List String) : Bool :=
  phrases.any (fun p => strContains s p)

/-- Split a character list at every occurrence of `c` (Python
`str.split(c)`: empty pieces are kept). -/
def splitCharList (c : Char) : List Char → List (List Char)
  | [] => [[]]
  | x :: xs =>
    let r := splitCharList c xs
    if x = c then [] :: r
    else match r with
      | [] => [[x]]
      | y :: ys => (x :: y) :: ys

/-- Python `s.split(c)` for a one-character separator. -/
def pySplit (s : String) (c : Char) : List String :=
  (splitCharList c s.data).map (fun l => ⟨l⟩)

/-- Join of character lists with a separator list. -/
def pyJoinList (sep : List Char) : List (List Char) → List Char
  | [] => []
  | [x] => x
  | x :: y :: ys => x ++ sep ++ pyJoinList sep (y :: ys)

/-- Python `sep.join(parts)`. -/
def pyJoin (sep : String) (parts : List String) : String :=
  ⟨pyJoinList sep.data (parts.map (·.data))⟩

/-! ### Redis response cache (`cache/redis_manager.py`)

`RedisCacheManager` stores, under the key `"response:" + query`, a JSON
object holding the response string and an absolute expiration timestamp
(`now + expiration_hours`).  The store is modelled as an association
list from keys to `(response, expiration)`; the JSON round-trip is the
identity on this structured data.  Time is in hours. -/

structure CacheState where
  entries : List (String × String × Nat)
deriving DecidableEq, Repr

/-- Raw lookup of a key in the store (Python `redis_client.get` plus
`json.loads`). -/
def entryLookup (s : CacheState) (k : String) : Option (String × Nat) :=
  (s.entries.find? (fun e => e.1 == k)).map (·.2)

/-- Python `redis_client.delete(key)`. -/
def cacheDelete (s : CacheState) (k : String) : CacheState :=
  ⟨s.entries.filter (fun e => e.1 != k)⟩

/-- The constructor default `expiration_hours=24` of `RedisCacheManager`. -/
def expirationHours : Nat := 24

/-- `RedisCacheManager.set_cached_response` (lines 45-56): unconditional
overwrite of `"response:" + query` with the response and the absolute
expiration `now + expiration_hours`. -/
def setCachedResponse (s : CacheState) (query response : String) (now : Nat) : CacheState :=
  let key := "response:" ++ query
  ⟨(s.entries.filter (fun e => e.1 != key)) ++ [(key, response, now + expirationHours)]⟩

/-- `RedisCacheManager.get_cached_response` (lines 28-43): read the
entry for `"response:" + query`; if present and `now < expiration`
return the stored response, if present but expired delete it (lazy
eviction) and return `None`, else return `None`.  The returned pair is
(result, post-state). -/
def getCachedResponse (s : CacheState) (query : String) (now : Nat) :
    Option String × CacheState :=
  match entryLookup s ("response:" ++ query) with
  | some (resp, exp) =>
    if now < exp then (some resp, s) else (none, cacheDelete s ("response:" ++ query))
  | none => (none, s)

/-! ### Association-list lemmas for the cache -/

theorem find?_filter_ne_append (l rest : List (String × String × Nat)) (key : String) :
    (List.find? (fun e => e.1 == key) ((l.filter (fun e => e.1 != key)) ++ rest))
      = List.find? (fun e => e.1 == key) rest := by
  induction l with
  | nil => simp
  | cons e l ih =>
    cases h : (e.1 == key) with
    | true =>
      have hf : (e.1 != key) = false := by simp [bne, h]
      simp [List.filter_cons, hf, ih]
    | false =>
      have hb : (e.1 != key) = true := by simp [bne, h]
      simp [List.filter_cons, hb, List.find?, h, ih]

theorem entryLookup_setCachedResponse_self (s : CacheState) (q v : String) (now : Nat) :
    entryLookup (setCachedResponse s q v now) ("response:" ++ q)
      = some (v, now + expirationHours) := by
  simp [entryLookup, setCachedResponse, find?_filter_ne_append, List.find?]

theorem entryLookup_cacheDelete_self (s : CacheState) (k : String) :
    entryLookup (cacheDelete s k) k = none := by
  have h := find?_filter_ne_append s.entries [] k
  simp at h
  simp [entryLookup, cacheDelete, h]

/-! ### Claim C5 -/

/-- C5: after `set(query, value)` the cache key is the namespace prefix
`"response:"` plus the verbatim query text; a `get(query)` strictly
before the stored expiration timestamp returns exactly that value and
leaves the store untouched, while a `get` at or after the expiration
timestamp deletes the entry and returns absent. -/
theorem cache_set_get_spec (s : CacheState) (q v : String) (now t : Nat) :
    entryLookup (setCachedResponse s q v now) ("response:" ++ q)
        = some (v, now + expirationHours)
    ∧ (t < now + expirationHours →
        getCachedResponse (setCachedResponse s q v now) q t
          = (some v, setCachedResponse s q v now))
    ∧ (now + expirationHours ≤ t →
        getCachedResponse (setCachedResponse s q v now) q t
          = (none, cacheDelete (setCachedResponse s q v now) ("response:" ++ q))) := by
  refine ⟨entryLookup_setCachedResponse_self s q v now, ?_, ?_⟩
  · intro ht
    simp [getCachedResponse, entryLookup_setCachedResponse_self, ht]
  · intro ht
    simp [getCachedResponse, entryLookup_setCachedResponse_self, Nat.not_lt.mpr ht]

/-- Witness for C5 at a concrete store, query, value and two read
times (one before, one at expiry). -/
theorem cache_set_get_spec_witness :
    getCachedResponse (setCachedResponse ⟨[]⟩ "q" "a" 0) "q" 3
        = (some "a", setCachedResponse ⟨[]⟩ "q" "a" 0)
    ∧ getCachedResponse (setCachedResponse ⟨[]⟩ "q" "a" 0) "q" 24
        = (none, cacheDelete (setCachedResponse ⟨[]⟩ "q" "a" 0) ("response:" ++ "q")) :=
  ⟨(cache_set_get_spec ⟨[]⟩ "q" "a" 0 3).2.1 (by decide),
   (cache_set_get_spec ⟨[]⟩ "q" "a" 0 24).2.2 (by decide)⟩

/-! ### Negative-response classifiers

Three sibling classifiers exist in the sources, with slightly different
phrase lists and length conditions; each is embedded verbatim. -/

/-- `negative_phrases` of `Orchestrator._is_negative_response`
(`core/orchestrator.py` lines 54-65). -/
def orchNegativePhrases : List String :=
  ["no lo sé", "no tengo información", "no está en el contexto", "no encuentro",
   "no se menciona", "no aparece", "no puedo responder", "no hay información",
   "la información no está disponible", "no tengo datos"]

/-- `negative_phrases` of `CAGEngine._is_negative_response`
(`core/cag_engine.py` lines 149-160). -/
def cagNegativePhrases : List String :=
  ["no lo sé", "no tengo información", "no está en el contexto", "no encuentro",
   "no se menciona", "no aparece", "no puedo responder", "no hay información",
   "la información no está disponible", "no tengo datos"]

/-- `negative_phrases` of `RAGEngine._is_negative_response`
(`core/rag_engine.py` lines 321-330). -/
def ragNegativePhrases : List String :=
  ["no lo sé", "no tengo información", "no está en el contexto", "no encuentro",
   "no se menciona", "no aparece", "no puedo responder",
   "la información no está disponible"]

/-- `negative_indicators` of `Orchestrator._should_fallback_to_cag`
(`core/orchestrator.py` lines 22-32). -/
def fallbackNegativeIndicators : List String :=
  ["no lo sé", "no encuentro", "no tengo información", "no está en el contexto",
   "no aparece en el texto", "no se menciona", "no hay información",
   "no puedo responder", "la información no está disponible"]

/-- `Orchestrator._is_negative_response` (lines 49-80): empty or
whitespace-only, exact (case-insensitive, stripped) "no lo sé", or a
refusal phrase contained in a stripped lowered response shorter than
50 characters. -/
def orchIsNegativeResponse (response : String) : Bool :=
  if pyStrip response = "" then true
  else
    let rl := pyStrip (pyLower response)
    if rl = "no lo sé" then true
    else containsAny rl orchNegativePhrases && decide (pyLen rl < 50)

/-- `CAGEngine._is_negative_response` (lines 144-169): same shape as the
orchestrator's but with NO length condition on the containment case. -/
def cagIsNegativeResponse (response : String) : Bool :=
  if pyStrip response = "" then true
  else
    let rl := pyStrip (pyLower response)
    if rl = "no lo sé" then true
    else containsAny rl cagNegativePhrases

/-- `RAGEngine._is_negative_response` (lines 316-332): empty or
whitespace-only, or phrase containment on the lowered (not stripped)
response at any length. -/
def ragIsNegativeResponse (response : String) : Bool :=
  if pyStrip response = "" then true
  else containsAny (pyLower response) ragNegativePhrases

/-- `Orchestrator._should_fallback_to_cag` (lines 17-47). -/
def shouldFallbackToCag (response : String) : Bool :=
  if pyStrip response = "" then true
  else
    let rl := pyStrip (pyLower response)
    if rl = "no lo sé" then true
    else
      let negativeCount := (fallbackNegativeIndicators.filter (fun p => strContains rl p)).length
      if 1 ≤ negativeCount ∨ (pyLen rl < 20 ∧ containsAny rl fallbackNegativeIndicators = true)
      then true else false

/-! ### CAG engine (`core/cag_engine.py`)

`CAGEngine.generate_response` is embedded with two abstraction
parameters standing for its external collaborators:

* `llm : Except String String` — the outcome of
  `azure_llm_client.generate_response(messages)`: either the generated
  text or a raised exception (the prompt construction `_build_messages`
  only shapes the text sent to this oracle, so its content is absorbed
  into the oracle's value);
* `optimize : String → String` — `_optimize_context` (lines 64-119).
  Its internals score sections with Python floats (0.1 bonuses, a 0.3
  threshold); every claim settled here holds for EVERY optimizer, so it
  is universally quantified instead of being reproduced in ℚ.  Note it
  is total: every path of the Python function returns a string, and its
  own `except` returns a truncation of the input.

The method's body is wrapped in `try/except`: a raise from the LLM call
is caught and mapped to the error string, with whatever cache mutations
already happened (the lazy-eviction delete of an expired entry) kept. -/

def cagGenerateResponse (optimize : String → String) (llm : Except String String)
    (query : String) (externalContext : Option String) (cache : CacheState) (now : Nat) :
    String × CacheState :=
  match getCachedResponse cache query now with
  | (some c, cache1) => (c, cache1)
  | (none, cache1) =>
    let ctxOk := match externalContext with
      | none => false
      | some ctx => pyStrip ctx != ""
    if ctxOk = false then
      ("No tengo información suficiente para responder esta pregunta.", cache1)
    else
      let ctx := externalContext.getD ""
      let optimized := optimize ctx
      if optimized = "" then ("No lo sé", cache1)
      else
        match llm with
        | Except.error _ =>
          ("Lo siento, ocurrió un error al procesar tu consulta.", cache1)
        | Except.ok response =>
          let cache2 :=
            if response != "" && !cagIsNegativeResponse response then
              setCachedResponse cache1 query response now
            else cache1
          (response, cache2)

/-! ### Orchestrator (`core/orchestrator.py`) -/

/-- `Orchestrator._cache_response_if_valid` (lines 82-96): write the
response to Redis only when the orchestrator's classifier says it is
not negative and the route is `rag` or `cag`. -/
def cacheResponseIfValid (s : CacheState) (query response route : String) (now : Nat) :
    CacheState :=
  if orchIsNegativeResponse response = false then
    if route = "rag" ∨ route = "cag" then setCachedResponse s query response now else s
  else s

/-- The result dictionary of `Orchestrator.route_query` (the ephemeral
`query_intent` diagnostic entry, a pure function of the query that no
claim mentions, is omitted). -/
structure RouteResult where
  response : String
  route : String
  source : String
deriving DecidableEq, Repr

/-- `Orchestrator.route_query` (lines 124-210).  Oracles:
`ragResult` is the outcome of `rag_engine.generate_answer(query)` — the
one call of the body whose failure is not absorbed by a callee-level
handler, hence the propagation point for the top-level `try/except`;
`cagLLM`/`optimize` are threaded to `cag_engine.generate_response`
(whose own `except` makes it total); `fullText` is
`rag_engine.get_document_text()` (a pure rendering of the document
store).  A raise is caught and mapped to the emergency response with
route `error`, with no cache write (mutations already performed by the
cache read — lazy eviction — persist, as in Python). -/
def routeQuery (optimize : String → String) (ragResult cagLLM : Except String String)
    (fullText query : String) (cache : CacheState) (now : Nat) :
    RouteResult × CacheState :=
  match getCachedResponse cache query now with
  | (some c, cache1) => (⟨c, "redis", "redis_cache"⟩, cache1)
  | (none, cache1) =>
    match ragResult with
    | Except.error _ =>
      (⟨"Lo siento, ocurrió un error al procesar tu consulta.", "error", "system_error"⟩,
       cache1)
    | Except.ok ragResponse =>
      if shouldFallbackToCag ragResponse = false then
        (⟨ragResponse, "rag", "chroma_db"⟩,
         cacheResponseIfValid cache1 query ragResponse "rag" now)
      else
        if pyStrip fullText = "" then
          (⟨"No tengo información suficiente para responder esta pregunta.", "cag",
            "no_documents"⟩, cache1)
        else
          let cr := cagGenerateResponse optimize cagLLM query (some fullText) cache1 now
          if orchIsNegativeResponse cr.1 = false then
            (⟨cr.1, "cag", "full_context"⟩, cacheResponseIfValid cr.2 query cr.1 "cag" now)
          else
            (⟨"No lo sé", "fallback", "no_information"⟩, cr.2)

/-! ### Soundness lemmas about the cache writes of the pipeline -/

/-- Everything the orchestrator's classifier flags, the CAG engine's
classifier flags too (the phrase lists coincide and the CAG variant
drops the length restriction). -/
theorem orchNeg_imp_cagNeg (r : String) (h : orchIsNegativeResponse r = true) :
    cagIsNegativeResponse r = true := by
  by_cases h1 : pyStrip r = ""
  · simp [cagIsNegativeResponse, h1]
  · by_cases h2 : pyStrip (pyLower r) = "no lo sé"
    · simp [cagIsNegativeResponse, h1, h2]
    · simp only [orchIsNegativeResponse, h1, h2, if_false, if_neg,
        Bool.and_eq_true, decide_eq_true_eq] at h
      have hlists : orchNegativePhrases = cagNegativePhrases := by rfl
      simp [cagIsNegativeResponse, h1, h2, ← hlists, h.1]

theorem orchNeg_false_of_cagNeg_false (r : String) (h : cagIsNegativeResponse r = false) :
    orchIsNegativeResponse r = false := by
  cases ho : orchIsNegativeResponse r with
  | false => rfl
  | true => rw [orchNeg_imp_cagNeg r ho] at h; exact absurd h (by simp)

/-- A read that misses leaves no entry under the query's key (either
there was none, or the expired one was lazily deleted). -/
theorem getCached_miss_entry_none (s : CacheState) (q : String) (now : Nat)
    (h : (getCachedResponse s q now).1 = none) :
    entryLookup (getCachedResponse s q now).2 ("response:" ++ q) = none := by
  cases he : entryLookup s ("response:" ++ q) with
  | none => simp [getCachedResponse, he]
  | some p =>
    obtain ⟨resp, exp⟩ := p
    by_cases hlt : now < exp
    · simp [getCachedResponse, he, hlt] at h
    · simp [getCachedResponse, he, hlt, entryLookup_cacheDelete_self]

/-- When no entry exists under the query's key, a read is a no-op
returning `none`. -/
theorem getCached_of_entry_none (s : CacheState) (q : String) (now : Nat)
    (h : entryLookup s ("response:" ++ q) = none) :
    getCachedResponse s q now = (none, s) := by
  simp [getCachedResponse, h]

/-- Any entry present after `_cache_response_if_valid` was either
already present or is the written response, which the guard certified
non-negative. -/
theorem cacheIfValid_entry (s : CacheState) (q resp route : String) (now : Nat)
    (v : String) (e : Nat)
    (h : entryLookup (cacheResponseIfValid s q resp route now) ("response:" ++ q)
          = some (v, e)) :
    entryLookup s ("response:" ++ q) = some (v, e)
    ∨ (v = resp ∧ orchIsNegativeResponse resp = false) := by
  unfold cacheResponseIfValid at h
  split_ifs at h with h1 h2
  · rw [entryLookup_setCachedResponse_self] at h
    right
    exact ⟨(Prod.mk.injEq _ _ _ _ ▸ Option.some.injEq _ _ ▸ h).1.symm ▸ rfl, h1⟩
  · exact Or.inl h
  · exact Or.inl h

/-- Any entry `CAGEngine.generate_response` leaves under the query's
key, starting from a store with no entry there, is a response its own
classifier certified non-negative. -/
theorem cagGen_entry (optimize : String → String) (llm : Except String String)
    (q : String) (ctx : Option String) (cache : CacheState) (now : Nat)
    (v : String) (e : Nat)
    (hnone : entryLookup cache ("response:" ++ q) = none)
    (h : entryLookup (cagGenerateResponse optimize llm q ctx cache now).2
          ("response:" ++ q) = some (v, e)) :
    cagIsNegativeResponse v = false := by
  unfold cagGenerateResponse at h
  rw [getCached_of_entry_none cache q now hnone] at h
  simp only at h
  split_ifs at h with hctx hopt
  · rw [hnone] at h; exact absurd h (by simp)
  · rw [hnone] at h; exact absurd h (by simp)
  · cases hllm : llm with
    | error err => rw [hllm] at h; simp only at h; rw [hnone] at h; exact absurd h (by simp)
    | ok response =>
      rw [hllm] at h
      simp only at h
      split_ifs at h with hguard
      · rw [entryLookup_setCachedResponse_self] at h
        have hv : v = response := ((Prod.mk.injEq _ _ _ _ ▸ Option.some.injEq _ _ ▸ h).1).symm
        have := (Bool.and_eq_true _ _).mp hguard
        subst hv
        simpa using this.2
      · rw [hnone] at h; exact absurd h (by simp)

/-! ### Claim C2 -/

/-- C2: starting from a store with no live entry for the query, every
entry the orchestrator pipeline (`route_query`, including the inner
cache write of `CAGEngine.generate_response`) leaves under that query's
key holds a response the negative-response classifier rejects as
negative — so a response classified negative is never written, and a
subsequent lookup (absent other writers) never returns one. -/
theorem negative_never_cached (optimize : String → String)
    (ragResult cagLLM : Except String String) (fullText query : String)
    (cache : CacheState) (now : Nat) (v : String) (e : Nat)
    (hmiss : (getCachedResponse cache query now).1 = none)
    (hlook : entryLookup (routeQuery optimize ragResult cagLLM fullText query cache now).2
              ("response:" ++ query) = some (v, e)) :
    orchIsNegativeResponse v = false := by
  have hc1 : entryLookup (getCachedResponse cache query now).2 ("response:" ++ query)
      = none := getCached_miss_entry_none cache query now hmiss
  rcases hg : getCachedResponse cache query now with ⟨o, cache1⟩
  rw [hg] at hmiss hc1
  simp only at hmiss
  subst hmiss
  unfold routeQuery at hlook
  rw [hg] at hlook
  simp only at hlook hc1
  cases ragResult with
  | error err =>
    rw [hc1] at hlook; exact absurd hlook (by simp)
  | ok ragResponse =>
    simp only at hlook
    split_ifs at hlook with h1 h2 h3
    · simp only at hlook
      rcases cacheIfValid_entry cache1 query ragResponse "rag" now v e hlook with h | h
      · rw [hc1] at h; exact absurd h (by simp)
      · exact h.1 ▸ h.2
    · simp only at hlook
      rw [hc1] at hlook; exact absurd hlook (by simp)
    · simp only at hlook
      rcases cacheIfValid_entry _ query _ "cag" now v e hlook with h | h
      · exact orchNeg_false_of_cagNeg_false v
          (cagGen_entry optimize cagLLM query (some fullText) cache1 now v e hc1 h)
      · exact h.1 ▸ h.2
    · simp only at hlook
      exact orchNeg_false_of_cagNeg_false v
        (cagGen_entry optimize cagLLM query (some fullText) cache1 now v e hc1 hlook)

/-- Witness for C2: a concrete run through the grounded branch writes a
non-negative answer, and the theorem applies to it. -/
theorem negative_never_cached_witness :
    orchIsNegativeResponse "la política de vacaciones otorga treinta días anuales" = false :=
  negative_never_cached id
    (Except.ok "la política de vacaciones otorga treinta días anuales") (Except.ok "x")
    "texto" "q" ⟨[]⟩ 0
    "la política de vacaciones otorga treinta días anuales" (0 + expirationHours)
    (by decide) (by decide)

/-! ### Claim C3 -/

/-- C3: an unhandled exception inside the body of `route_query` (its
stages either carry their own handler — the cache read, the CAG engine,
`_cache_response_if_valid` — or propagate, as the grounded-answer call
does) is caught by the top-level handler and converted to the uniform
internal-error response with route `error`; the cache is exactly the
state left by the initial read (no write happened, so the error text is
never cached), and the route differs from the terminal-negative route
`fallback`. -/
theorem unhandled_error_uniform (optimize : String → String)
    (cagLLM : Except String String) (fullText query err : String)
    (cache : CacheState) (now : Nat)
    (hmiss : (getCachedResponse cache query now).1 = none) :
    routeQuery optimize (Except.error err) cagLLM fullText query cache now
      = (⟨"Lo siento, ocurrió un error al procesar tu consulta.", "error", "system_error"⟩,
         (getCachedResponse cache query now).2)
    ∧ (routeQuery optimize (Except.error err) cagLLM fullText query cache now).1.route
        ≠ "fallback" := by
  rcases hg : getCachedResponse cache query now with ⟨o, cache1⟩
  rw [hg] at hmiss
  simp only at hmiss
  subst hmiss
  constructor
  · unfold routeQuery
    rw [hg]
  · unfold routeQuery
    rw [hg]
    simp only
    decide

/-- Witness for C3 at a concrete empty cache. -/
theorem unhandled_error_uniform_witness :
    routeQuery id (Except.error "boom") (Except.ok "x") "texto" "q" ⟨[]⟩ 0
      = (⟨"Lo siento, ocurrió un error al procesar tu consulta.", "error", "system_error"⟩,
         (getCachedResponse ⟨[]⟩ "q" 0).2)
    ∧ (routeQuery id (Except.error "boom") (Except.ok "x") "texto" "q" ⟨[]⟩ 0).1.route
        ≠ "fallback" :=
  unhandled_error_uniform id (Except.ok "x") "texto" "q" "boom" ⟨[]⟩ 0 (by decide)

/-! ### Claim C4 -/

/-- C4: on a cache miss where the grounded answer triggers fallback
(`_should_fallback_to_cag`) and the document store renders non-empty
text, the orchestrator's outcome is determined by the full-context
generation it invokes: either that generation's answer is returned with
route `cag`, or the terminal negative is returned only because that
answer was itself classified negative — never the terminal negative
without the fallback generation having run. -/
theorem fallback_before_negative (optimize : String → String)
    (cagLLM : Except String String) (ragResp fullText query : String)
    (cache : CacheState) (now : Nat)
    (hmiss : (getCachedResponse cache query now).1 = none)
    (hfb : shouldFallbackToCag ragResp = true)
    (hdoc : pyStrip fullText ≠ "") :
    ((routeQuery optimize (Except.ok ragResp) cagLLM fullText query cache now).1.route = "cag"
      ∧ (routeQuery optimize (Except.ok ragResp) cagLLM fullText query cache now).1.source
          = "full_context"
      ∧ (routeQuery optimize (Except.ok ragResp) cagLLM fullText query cache now).1.response
          = (cagGenerateResponse optimize cagLLM query (some fullText)
              (getCachedResponse cache query now).2 now).1)
    ∨ ((routeQuery optimize (Except.ok ragResp) cagLLM fullText query cache now).1.route
          = "fallback"
      ∧ (routeQuery optimize (Except.ok ragResp) cagLLM fullText query cache now).1.response
          = "No lo sé"
      ∧ orchIsNegativeResponse
          (cagGenerateResponse optimize cagLLM query (some fullText)
            (getCachedResponse cache query now).2 now).1 = true) := by
  rcases hg : getCachedResponse cache query now with ⟨o, cache1⟩
  rw [hg] at hmiss
  simp only at hmiss
  subst hmiss
  have hfb' : (shouldFallbackToCag ragResp = false) = False := by simp [hfb]
  unfold routeQuery
  rw [hg]
  simp only [hfb', if_false, if_neg hdoc]
  by_cases hneg : orchIsNegativeResponse
      (cagGenerateResponse optimize cagLLM query (some fullText) cache1 now).1 = false
  · left; simp [hneg]
  · right
    rw [if_neg hneg]
    exact ⟨rfl, rfl, Bool.not_eq_false _ ▸ hneg⟩

/-- Witness for C4: grounded answer "No lo sé" with a non-empty corpus;
the fallback generation's (non-negative) answer is returned, route
`cag`. -/
theorem fallback_before_negative_witness :
    ((routeQuery id (Except.ok "No lo sé")
        (Except.ok "El contrato otorga treinta días de vacaciones pagadas")
        "contenido del contrato" "q" ⟨[]⟩ 0).1.route = "cag"
      ∧ (routeQuery id (Except.ok "No lo sé")
          (Except.ok "El contrato otorga treinta días de vacaciones pagadas")
          "contenido del contrato" "q" ⟨[]⟩ 0).1.source = "full_context"
      ∧ (routeQuery id (Except.ok "No lo sé")
          (Except.ok "El contrato otorga treinta días de vacaciones pagadas")
          "contenido del contrato" "q" ⟨[]⟩ 0).1.response
          = (cagGenerateResponse id
              (Except.ok "El contrato otorga treinta días de vacaciones pagadas") "q"
              (some "contenido del contrato") (getCachedResponse ⟨[]⟩ "q" 0).2 0).1)
    ∨ ((routeQuery id (Except.ok "No lo sé")
          (Except.ok "El contrato otorga treinta días de vacaciones pagadas")
          "contenido del contrato" "q" ⟨[]⟩ 0).1.route = "fallback"
      ∧ (routeQuery id (Except.ok "No lo sé")
          (Except.ok "El contrato otorga treinta días de vacaciones pagadas")
          "contenido del contrato" "q" ⟨[]⟩ 0).1.response = "No lo sé"
      ∧ orchIsNegativeResponse
          (cagGenerateResponse id
            (Except.ok "El contrato otorga treinta días de vacaciones pagadas") "q"
            (some "contenido del contrato") (getCachedResponse ⟨[]⟩ "q" 0).2 0).1 = true) :=
  fallback_before_negative id
    (Except.ok "El contrato otorga treinta días de vacaciones pagadas")
    "No lo sé" "contenido del contrato" "q" ⟨[]⟩ 0 (by decide) (by decide) (by decide)

/-! ### Claim C6 -/

/-- C6 counterexample: a long response containing the refusal phrase
"no encuentro" (stripped lowered length well above any short-response
threshold, not empty, not the exact canonical refusal) IS classified
negative by `CAGEngine._is_negative_response`, while the orchestrator's
classifier — the variant that does carry the length restriction the
claim describes — classifies it non-negative.  The containment case
therefore does not apply "only when the overall response is short" for
the CAG classifier, and the two cited implementations disagree. -/
theorem classifier_length_counterexample :
    cagIsNegativeResponse
      "segun el documento no encuentro la clausula exacta, pero el contrato regula las vacaciones del personal"
      = true
    ∧ orchIsNegativeResponse
      "segun el documento no encuentro la clausula exacta, pero el contrato regula las vacaciones del personal"
      = false
    ∧ pyStrip
      "segun el documento no encuentro la clausula exacta, pero el contrato regula las vacaciones del personal"
      ≠ ""
    ∧ pyStrip (pyLower
      "segun el documento no encuentro la clausula exacta, pero el contrato regula las vacaciones del personal")
      ≠ "no lo sé"
    ∧ 50 ≤ pyLen (pyStrip (pyLower
      "segun el documento no encuentro la clausula exacta, pero el contrato regula las vacaciones del personal"))
    := by decide

/-- C6 amended: the orchestrator's classifier returns true exactly when
the response is empty/whitespace, an exact case-insensitive (stripped)
match of the canonical refusal "no lo sé", or contains a refusal phrase
while its stripped lowered length is below 50; the CAG engine's
classifier satisfies the same characterization WITHOUT the length
restriction on the containment case. -/
theorem classifier_characterization (r : String) :
    (orchIsNegativeResponse r = true ↔
      (pyStrip r = "" ∨ pyStrip (pyLower r) = "no lo sé"
        ∨ (containsAny (pyStrip (pyLower r)) orchNegativePhrases = true
            ∧ pyLen (pyStrip (pyLower r)) < 50)))
    ∧ (cagIsNegativeResponse r = true ↔
      (pyStrip r = "" ∨ pyStrip (pyLower r) = "no lo sé"
        ∨ containsAny (pyStrip (pyLower r)) cagNegativePhrases = true)) := by
  constructor
  · by_cases h1 : pyStrip r = ""
    · simp [orchIsNegativeResponse, h1]
    · by_cases h2 : pyStrip (pyLower r) = "no lo sé"
      · simp [orchIsNegativeResponse, h1, h2]
      · simp [orchIsNegativeResponse, h1, h2]
  · by_cases h1 : pyStrip r = ""
    · simp [cagIsNegativeResponse, h1]
    · by_cases h2 : pyStrip (pyLower r) = "no lo sé"
      · simp [cagIsNegativeResponse, h1, h2]
      · simp [cagIsNegativeResponse, h1, h2]

/-! ### Semantic chunker (`RAGEngine._semantic_chunking`, lines 50-116)

The four `title_patterns` regexes (all applied with `re.IGNORECASE`) are
implemented directly; note that IGNORECASE makes `[A-Z]` match ASCII
letters of either case, so the "all-caps header" pattern in fact
matches any long line of letters, spaces and Spanish accents. -/

def pyIsDigit (c : Char) : Bool := '0' ≤ c && c ≤ '9'

def isAsciiLetter (c : Char) : Bool := ('A' ≤ c && c ≤ 'Z') || ('a' ≤ c && c ≤ 'z')

def isSpanishAccent (c : Char) : Bool :=
  ['á', 'é', 'í', 'ó', 'ú', 'ñ', 'Á', 'É', 'Í', 'Ó', 'Ú', 'Ñ'].contains c

/-- Case-insensitive literal keyword at the head of the line (the
keyword is given lowercased); returns the remainder. -/
def dropKeywordCI (kw l : List Char) : Option (List Char) :=
  if (l.take kw.length).map pyLowerChar = kw then some (l.drop kw.length) else none

/-- The common tail of patterns 1 and 4 after the keyword,
regex `\s+\d+[.:]\s*(.+)$`, returning capture group 1.  Lines are
pre-stripped, so maximal-munch parsing coincides with the regex. -/
def matchTitleTail (l : List Char) : Option (List Char) :=
  match l with
  | [] => none
  | c :: rest =>
    if pyIsSpace c then
      match rest.dropWhile pyIsSpace with
      | [] => none
      | d :: rest2 =>
        if pyIsDigit d then
          match rest2.dropWhile pyIsDigit with
          | [] => none
          | p :: rest3 =>
            if p = '.' || p = ':' then
              let group := rest3.dropWhile pyIsSpace
              if group.isEmpty then none else some group
            else none
        else none
    else none

/-- Pattern 1: `^(?:ARTÍCULO|Artículo|ART|Art)\s+\d+[.:]\s*(.+)$` with
IGNORECASE (the alternation collapses to trying "artículo" then
"art"). -/
def matchArticleHeading (l : List Char) : Option (List Char) :=
  match (dropKeywordCI "artículo".data l).bind matchTitleTail with
  | some g => some g
  | none => (dropKeywordCI "art".data l).bind matchTitleTail

/-- Does `\s+.+` match the list (first char whitespace, something
non-empty after the whitespace run; lines are pre-stripped)? -/
def spacesThenRest (r : List Char) : Bool :=
  match r with
  | [] => false
  | c :: rest => pyIsSpace c && !(rest.dropWhile pyIsSpace).isEmpty

/-- Pattern 2: `^(\d+\.\d+\.?\s+.+)$` — group 1 is the whole line. -/
def matchNumberedHeading (l : List Char) : Option (List Char) :=
  if (l.takeWhile pyIsDigit).isEmpty then none
  else
    match l.dropWhile pyIsDigit with
    | '.' :: r2 =>
      if (r2.takeWhile pyIsDigit).isEmpty then none
      else
        let r3 := r2.dropWhile pyIsDigit
        let withDot := match r3 with
          | '.' :: r4 => spacesThenRest r4
          | _ => false
        if withDot || spacesThenRest r3 then some l else none
    | _ => none

/-- Pattern 3: `^([A-Z][A-Z\sáéíóúñÁÉÍÓÚÑ]{10,})$` with IGNORECASE —
group 1 is the whole line. -/
def matchCapsHeading (l : List Char) : Option (List Char) :=
  match l with
  | [] => none
  | c :: rest =>
    if isAsciiLetter c && decide (10 ≤ rest.length)
        && rest.all (fun x => isAsciiLetter x || pyIsSpace x || isSpanishAccent x)
    then some l else none

/-- Pattern 4: `^(?:Sección|SECCIÓN|Capítulo|CAPÍTULO)\s+\d+[.:]\s*(.+)$`
with IGNORECASE. -/
def matchSectionHeading (l : List Char) : Option (List Char) :=
  match (dropKeywordCI "sección".data l).bind matchTitleTail with
  | some g => some g
  | none => (dropKeywordCI "capítulo".data l).bind matchTitleTail

/-- The title-detection loop over `title_patterns` (in source order),
returning `match.group(1).strip()` for the first pattern that
matches. -/
def matchTitle (line : String) : Option String :=
  match matchArticleHeading line.data with
  | some g => some (pyStrip ⟨g⟩)
  | none =>
    match matchNumberedHeading line.data with
    | some g => some (pyStrip ⟨g⟩)
    | none =>
      match matchCapsHeading line.data with
      | some g => some (pyStrip ⟨g⟩)
      | none =>
        match matchSectionHeading line.data with
        | some g => some (pyStrip ⟨g⟩)
        | none => none

/-- Python dictionaries of string keys and values (chunk metadata). -/
abbrev PyDict := List (String × String)

/-- The `current_metadata` dictionary at a given title. -/
def mkSemanticMetadata (doc_id title : String) : PyDict :=
  [("doc_id", doc_id), ("title", title), ("chunk_type", "semantic")]

/-- Loop state of `_semantic_chunking`: accumulated chunks, the chunk
under construction, and the current title (the mutable
`current_metadata` is a function of `doc_id` and the title). -/
structure ChunkState where
  chunks : List (String × PyDict)
  currentChunk : List String
  currentTitle : String
deriving DecidableEq, Repr

/-- One iteration of the line loop of `_semantic_chunking`.  A chunk
flushed on encountering a title carries the metadata copied BEFORE the
title update (as in the source); the forced break at 600 characters
appends without the 50-character minimum. -/
def chunkLineStep (doc_id : String) (st : ChunkState) (rawLine : String) : ChunkState :=
  let line := pyStrip rawLine
  if line = "" then st
  else
    let t? := matchTitle line
    let isTitle := t?.isSome
    let matchedTitle := t?.getD ""
    let st1 :=
      if isTitle && matchedTitle != "" then
        let flushed :=
          if st.currentChunk.isEmpty then st
          else
            let chunkText := pyJoin "\n" st.currentChunk
            if 50 < pyLen chunkText then
              { st with
                chunks := st.chunks ++ [(chunkText, mkSemanticMetadata doc_id st.currentTitle)],
                currentChunk := [] }
            else { st with currentChunk := [] }
        { flushed with currentTitle := matchedTitle,
                       currentChunk := flushed.currentChunk ++ [line] }
      else { st with currentChunk := st.currentChunk ++ [line] }
    let currentText := pyJoin "\n" st1.currentChunk
    if 600 < pyLen currentText ∧ isTitle = false then
      if st1.currentChunk.isEmpty then st1
      else
        { st1 with
          chunks := st1.chunks ++ [(currentText, mkSemanticMetadata doc_id st1.currentTitle)],
          currentChunk := [] }
    else st1

/-- `RAGEngine._semantic_chunking(text, doc_id)`. -/
def semanticChunking (text doc_id : String) : List (String × PyDict) :=
  let lines := pySplit text '\n'
  let final := lines.foldl (chunkLineStep doc_id) ⟨[], [], "Introducción"⟩
  if final.currentChunk.isEmpty then final.chunks
  else
    let chunkText := pyJoin "\n" final.currentChunk
    if 50 < pyLen chunkText then
      final.chunks ++ [(chunkText, mkSemanticMetadata doc_id final.currentTitle)]
    else final.chunks

/-! ### Chroma collection and `RAGEngine.ingest_document` -/

/-- One record of the ChromaDB collection. -/
structure ChromaEntry where
  id : String
  document : String
  metadata : PyDict
deriving DecidableEq, Repr

abbrev Collection := List ChromaEntry

/-- `collection.add(ids, documents, metadatas)`.  ChromaDB validates
that the id list is non-empty (`validate_ids` raises `ValueError` on an
empty batch) and, for ids already present in the collection, logs
"Insert of existing embedding ID" and keeps the EXISTING record —
duplicates are skipped, not overwritten. -/
def chromaAdd (coll : Collection) (entries : List ChromaEntry) : Except String Collection :=
  if entries.isEmpty then Except.error "Expected IDs to be a non-empty list"
  else
    Except.ok (entries.foldl
      (fun acc en => if acc.any (fun x => x.id == en.id) then acc else acc ++ [en]) coll)

/-- Mutable state of a `RAGEngine` instance: the `documents_store` dict
and the Chroma collection. -/
structure RAGEngineState where
  documents_store : List (String × String)
  collection : Collection
deriving DecidableEq, Repr

/-- Python dict assignment `d[k] = v`. -/
def pyDictSet (d : List (String × String)) (k v : String) : List (String × String) :=
  if d.any (fun p => p.1 == k) then d.map (fun p => if p.1 == k then (k, v) else p)
  else d ++ [(k, v)]

/-- Python dict read `d.get(k)`. -/
def pyDictLookup (d : List (String × String)) (k : String) : Option String :=
  (d.find? (fun p => p.1 == k)).map (·.2)

/-- The batch of records `ingest_document` sends to `collection.add`:
the semantic chunks enumerated with ids `{doc_id}_chunk_{idx}`. -/
def ingestEntries (doc_id text : String) : List ChromaEntry :=
  (semanticChunking text doc_id).enum.map
    (fun ic => ChromaEntry.mk (doc_id ++ "_chunk_" ++ toString ic.1) ic.2.1 ic.2.2)

/-- `RAGEngine.ingest_document` (lines 118-149): store the full text in
`documents_store`, chunk it, and add the chunks to the collection.  No
deletion of previous chunks happens anywhere.  An exception from the
add is logged and re-raised (second component); the store mutation done
before the raise persists, as in Python. -/
def ingestDocument (st : RAGEngineState) (doc_id text : String) :
    RAGEngineState × Option String :=
  match chromaAdd st.collection (ingestEntries doc_id text) with
  | Except.ok coll2 => (⟨pyDictSet st.documents_store doc_id text, coll2⟩, none)
  | Except.error e => (⟨pyDictSet st.documents_store doc_id text, st.collection⟩, some e)

/-! ### Lemmas about ingestion -/

theorem chromaAdd_foldl_extends (entries : List ChromaEntry) (acc : Collection) :
    ∃ l, entries.foldl
        (fun acc en => if acc.any (fun x => x.id == en.id) then acc else acc ++ [en]) acc
      = acc ++ l := by
  induction entries generalizing acc with
  | nil => exact ⟨[], by simp⟩
  | cons e es ih =>
    simp only [List.foldl_cons]
    cases h : acc.any (fun x => x.id == e.id) with
    | true =>
      obtain ⟨l, hl⟩ := ih acc
      refine ⟨l, ?_⟩
      rw [if_pos rfl, hl]
    | false =>
      obtain ⟨l, hl⟩ := ih (acc ++ [e])
      refine ⟨[e] ++ l, ?_⟩
      rw [if_neg (by simp), hl, List.append_assoc]

/-- Ingestion never removes a record from the collection: whatever the
add did (append new ids, skip existing ones, or fail on an empty
batch), the prior collection is an initial segment of the new one. -/
theorem ingestDocument_collection_extends (st : RAGEngineState) (doc_id text : String) :
    ∃ l, (ingestDocument st doc_id text).1.collection = st.collection ++ l := by
  unfold ingestDocument chromaAdd
  cases he : (ingestEntries doc_id text).isEmpty with
  | true => exact ⟨[], by simp [he]⟩
  | false =>
    obtain ⟨l, hl⟩ := chromaAdd_foldl_extends (ingestEntries doc_id text) st.collection
    refine ⟨l, ?_⟩
    simp only [Bool.false_eq_true, if_false]
    exact hl

theorem ingestDocument_store (st : RAGEngineState) (doc_id text : String) :
    (ingestDocument st doc_id text).1.documents_store
      = pyDictSet st.documents_store doc_id text := by
  cases hadd : chromaAdd st.collection (ingestEntries doc_id text) with
  | ok c => simp [ingestDocument, hadd]
  | error e => simp [ingestDocument, hadd]

theorem find?_map_replace (d : List (String × String)) (k v : String)
    (h : d.any (fun p => p.1 == k) = true) :
    (d.map (fun p => if p.1 == k then (k, v) else p)).find? (fun p => p.1 == k)
      = some (k, v) := by
  induction d with
  | nil => simp at h
  | cons p d ih =>
    cases hp : (p.1 == k) with
    | true =>
      rw [List.map_cons]
      have hf : (if (p.1 == k) = true then (k, v) else p) = (k, v) := by simp [hp]
      rw [hf]
      exact List.find?_cons_of_pos _ (by simp)
    | false =>
      have h' : d.any (fun p => p.1 == k) = true := by simpa [List.any_cons, hp] using h
      rw [List.map_cons]
      have hf : (if (p.1 == k) = true then (k, v) else p) = p := by simp [hp]
      rw [hf, List.find?_cons_of_neg _ (by simp [hp])]
      exact ih h'

theorem find?_append_new (d : List (String × String)) (k v : String)
    (h : d.any (fun p => p.1 == k) = false) :
    (d ++ [(k, v)]).find? (fun p => p.1 == k) = some (k, v) := by
  induction d with
  | nil => exact List.find?_cons_of_pos _ (by simp)
  | cons p d ih =>
    have hp : (p.1 == k) = false := by
      cases hpk : (p.1 == k) with
      | false => rfl
      | true => simp [List.any_cons, hpk] at h
    have h' : d.any (fun p => p.1 == k) = false := by
      simpa [List.any_cons, hp] using h
    rw [List.cons_append, List.find?_cons_of_neg _ (by simp [hp])]
    exact ih h'

theorem pyDictLookup_pyDictSet_self (d : List (String × String)) (k v : String) :
    pyDictLookup (pyDictSet d k v) k = some v := by
  unfold pyDictLookup pyDictSet
  cases h : d.any (fun p => p.1 == k) with
  | true =>
    rw [if_pos rfl, find?_map_replace d k v h]
    rfl
  | false =>
    rw [if_neg (by simp), find?_append_new d k v h]
    rfl

/-! ### Claim C1 -/

/-- C1 counterexample: ingest document `"d"` with a two-chunk text,
then re-ingest it with a one-chunk text.  The retrievable chunk set
afterwards is NOT the one derived from the second text: both chunks of
the first version are still there (chunk id `d_chunk_0` was skipped by
the add as already existing and `d_chunk_1` was never deleted). -/
theorem reingest_leaves_stale_chunks :
    (semanticChunking
        "art 9: resumen\nla empresa otorga beneficios adicionales, cada periodo anual"
        "d").length = 1
    ∧ ((ingestDocument
          (ingestDocument ⟨[], []⟩ "d"
            "art 1: tema uno\nel contrato establece treinta dias de vacaciones, pagadas\nart 2: tema dos\nlas horas extra se pagan con recargo, por ciento adicional").1
          "d"
          "art 9: resumen\nla empresa otorga beneficios adicionales, cada periodo anual").1.collection.length
        = 2)
    ∧ ((ingestDocument
          (ingestDocument ⟨[], []⟩ "d"
            "art 1: tema uno\nel contrato establece treinta dias de vacaciones, pagadas\nart 2: tema dos\nlas horas extra se pagan con recargo, por ciento adicional").1
          "d"
          "art 9: resumen\nla empresa otorga beneficios adicionales, cada periodo anual").1.collection.any
          (fun c => c.id == "d_chunk_1") = true)
    ∧ ((ingestDocument
          (ingestDocument ⟨[], []⟩ "d"
            "art 1: tema uno\nel contrato establece treinta dias de vacaciones, pagadas\nart 2: tema dos\nlas horas extra se pagan con recargo, por ciento adicional").1
          "d"
          "art 9: resumen\nla empresa otorga beneficios adicionales, cada periodo anual").1.collection.map
          (fun c => c.document)
        ≠ (semanticChunking
            "art 9: resumen\nla empresa otorga beneficios adicionales, cada periodo anual"
            "d").map (fun c => c.1)) := by decide

/-- C1 amended: re-ingesting a `doc_id` overwrites its entry in the
full-text document store, but deletes no chunks: the collection before
the second ingest is always an initial segment of the collection after
it (the add only appends ids not yet present), so chunks of the first
version remain retrievable whenever the two versions do not produce
identical chunk sets. -/
theorem reingest_keeps_old_chunks (st : RAGEngineState) (doc_id t1 t2 : String) :
    (∃ l, (ingestDocument (ingestDocument st doc_id t1).1 doc_id t2).1.collection
            = (ingestDocument st doc_id t1).1.collection ++ l)
    ∧ pyDictLookup
        (ingestDocument (ingestDocument st doc_id t1).1 doc_id t2).1.documents_store doc_id
      = some t2 := by
  refine ⟨ingestDocument_collection_extends _ doc_id t2, ?_⟩
  rw [ingestDocument_store]
  exact pyDictLookup_pyDictSet_self _ doc_id t2

/-! ### Whitespace-only texts produce no chunks -/

theorem strip_nil_all_space (l : List Char) (h : pyStripList l = []) :
    ∀ x ∈ l, pyIsSpace x = true := by
  induction l with
  | nil => intro x hx; simp at hx
  | cons c t ih =>
    unfold pyStripList at h
    cases hc : pyIsSpace c with
    | true =>
      have ht : pyStripList t = [] := by
        unfold pyStripList
        simpa [List.dropWhile_cons, hc] using h
      intro x hx
      rcases List.mem_cons.mp hx with rfl | hx
      · exact hc
      · exact ih ht x hx
    | false =>
      exfalso
      rw [List.dropWhile_cons, hc] at h
      simp only [Bool.false_eq_true, if_false, List.reverse_eq_nil_iff] at h
      have := List.dropWhile_eq_nil_iff.mp h
      have hcmem : c ∈ (c :: t).reverse := by simp
      have := this c hcmem
      rw [hc] at this
      exact Bool.false_ne_true this

theorem all_space_strip_nil (l : List Char) (h : ∀ x ∈ l, pyIsSpace x = true) :
    pyStripList l = [] := by
  unfold pyStripList
  have h1 : l.dropWhile pyIsSpace = [] := List.dropWhile_eq_nil_iff.mpr h
  simp [h1]

theorem splitCharList_sub (c : Char) (l : List Char) :
    ∀ piece ∈ splitCharList c l, ∀ x ∈ piece, x ∈ l := by
  induction l with
  | nil =>
    intro piece hp x hx
    simp [splitCharList] at hp
    subst hp
    simp at hx
  | cons a as ih =>
    intro piece hp x hx
    simp only [splitCharList] at hp
    by_cases hac : a = c
    · rw [if_pos hac] at hp
      rcases List.mem_cons.mp hp with rfl | hp
      · simp at hx
      · exact List.mem_cons_of_mem a (ih piece hp x hx)
    · rw [if_neg hac] at hp
      cases hr : splitCharList c as with
      | nil =>
        rw [hr] at hp
        simp at hp
        subst hp
        simp at hx
        simp [hx]
      | cons y ys =>
        rw [hr] at hp
        rcases List.mem_cons.mp hp with rfl | hp
        · rcases List.mem_cons.mp hx with rfl | hx
          · simp
          · have hy : y ∈ splitCharList c as := by rw [hr]; simp
            exact List.mem_cons_of_mem a (ih y hy x hx)
        · have hys : piece ∈ splitCharList c as := by
            rw [hr]; exact List.mem_cons_of_mem y hp
          exact List.mem_cons_of_mem a (ih piece hys x hx)

theorem chunkLineStep_skip (doc_id : String) (st : ChunkState) (line : String)
    (h : pyStrip line = "") : chunkLineStep doc_id st line = st := by
  simp [chunkLineStep, h]

theorem foldl_chunkLineStep_skip (doc_id : String) (lines : List String) (st : ChunkState)
    (h : ∀ line ∈ lines, pyStrip line = "") :
    lines.foldl (chunkLineStep doc_id) st = st := by
  induction lines generalizing st with
  | nil => rfl
  | cons l ls ih =>
    rw [List.foldl_cons, chunkLineStep_skip doc_id st l (h l (by simp))]
    exact ih st (fun x hx => h x (List.mem_cons_of_mem l hx))

/-- A text that strips to nothing yields no chunks at all. -/
theorem semanticChunking_empty (text doc_id : String) (h : pyStrip text = "") :
    semanticChunking text doc_id = [] := by
  have hd : pyStripList text.data = [] := congrArg String.data h
  have hall : ∀ x ∈ text.data, pyIsSpace x = true := strip_nil_all_space text.data hd
  have hlines : ∀ line ∈ pySplit text '\n', pyStrip line = "" := by
    intro line hline
    rcases List.mem_map.mp hline with ⟨piece, hpmem, rfl⟩
    have hpc : ∀ x ∈ piece, pyIsSpace x = true :=
      fun x hx => hall x (splitCharList_sub '\n' text.data piece hpmem x hx)
    show String.mk (pyStripList piece) = ""
    rw [all_space_strip_nil piece hpc]
  simp only [semanticChunking]
  rw [foldl_chunkLineStep_skip doc_id _ _ hlines]
  rfl

/-! ### Claim C9 -/

/-- C9 counterexample: ingesting a whitespace-only text into a fresh
engine is NOT a no-op: the document store (previously empty) now maps
`"d"` to the raw text, and the empty chunk batch makes the vector-store
add raise, which `ingest_document` re-raises. -/
theorem empty_text_ingest_counterexample :
    (ingestDocument ⟨[], []⟩ "d" "   ").1.documents_store = [("d", "   ")]
    ∧ (ingestDocument ⟨[], []⟩ "d" "   ").2 = some "Expected IDs to be a non-empty list"
    ∧ (ingestDocument ⟨[], []⟩ "d" "   ").1.documents_store
        ≠ (⟨[], []⟩ : RAGEngineState).documents_store := by decide

/-- C9 amended: for a text empty after trimming, ingestion derives zero
chunks and adds nothing to the index, but it is not a silent no-op: the
raw text is written into the document store before chunking, and the
empty add batch is rejected by the vector store, an error the method
re-raises. -/
theorem empty_text_ingest_behaviour (st : RAGEngineState) (doc_id text : String)
    (h : pyStrip text = "") :
    semanticChunking text doc_id = []
    ∧ (ingestDocument st doc_id text).1.collection = st.collection
    ∧ (ingestDocument st doc_id text).1.documents_store
        = pyDictSet st.documents_store doc_id text
    ∧ (ingestDocument st doc_id text).2 = some "Expected IDs to be a non-empty list" := by
  have hc := semanticChunking_empty text doc_id h
  have hent : ingestEntries doc_id text = [] := by simp [ingestEntries, hc]
  have hadd : chromaAdd st.collection (ingestEntries doc_id text)
      = Except.error "Expected IDs to be a non-empty list" := by
    simp [chromaAdd, hent]
  exact ⟨hc, by simp [ingestDocument, hadd], by simp [ingestDocument, hadd],
         by simp [ingestDocument, hadd]⟩

/-- Witness for the amended C9 at a concrete one-space text. -/
theorem empty_text_ingest_behaviour_witness :
    semanticChunking " " "d" = []
    ∧ (ingestDocument ⟨[], []⟩ "d" " ").1.collection = ([] : Collection)
    ∧ (ingestDocument ⟨[], []⟩ "d" " ").1.documents_store = pyDictSet [] "d" " "
    ∧ (ingestDocument ⟨[], []⟩ "d" " ").2 = some "Expected IDs to be a non-empty list" :=
  empty_text_ingest_behaviour ⟨[], []⟩ "d" " " (by decide)

/-! ### Hybrid search (`RAGEngine._hybrid_search`, lines 151-208)

Oracles: the Chroma vector query is an `Except`-valued list of hits
(document, metadata, cosine distance) — the `n_results=top_k*2`
truncation happens inside the store and is absorbed into the oracle;
the BM25 scorer is a total function from corpus index to score (the
`rank_bm25` library returns one score per corpus document).  Scores and
distances are `ℚ`.  `argsort()[::-1]` is modelled as a descending sort
of the indices (ties are broken deterministically here; no claim
depends on tie order). -/

structure VectorHit where
  document : String
  metadata : PyDict
  distance : ℚ
deriving DecidableEq, Repr

structure HybridResult where
  text : String
  metadata : PyDict
  score : ℚ
  rtype : String
  rerank_score : Option ℚ
  combined_score : Option ℚ
deriving DecidableEq, Repr

/-- The vector half of the merge: hits with truthy, non-whitespace
documents become results of type `vector` with score `1 - distance`
(the loop adds every such hit; `seen_ids` is only consulted later). -/
def vectorResults (vhits : List VectorHit) : List HybridResult :=
  (vhits.filter (fun h => h.document != "" && pyStrip h.document != "")).map
    (fun h => HybridResult.mk h.document h.metadata (1 - h.distance) "vector" none none)

/-- The `seen_ids` set after the vector loop: the 100-character prefix
signatures of the vector results, in order. -/
def vectorSeenIds (vhits : List VectorHit) : List String :=
  (vhits.filter (fun h => h.document != "" && pyStrip h.document != "")).map
    (fun h => pyTake 100 h.document)

/-- One iteration of the BM25 loop: an in-bounds, truthy document whose
signature is unseen and whose score is strictly positive is appended
and its signature recorded. -/
def bm25Step (docs : List String) (score : Nat → ℚ)
    (acc : List HybridResult × List String) (idx : Nat) :
    List HybridResult × List String :=
  match docs.get? idx with
  | some doc_text =>
    if doc_text != "" && !(acc.2.contains (pyTake 100 doc_text))
        && decide (0 < score idx) then
      (acc.1 ++ [HybridResult.mk doc_text
         [("doc_id", "bm25_result"), ("chunk_type", "bm25")] (score idx) "bm25"
         none none],
       acc.2 ++ [pyTake 100 doc_text])
    else acc
  | none => acc

/-- The BM25 loop over the chosen indices. -/
def bm25Merge (docs : List String) (score : Nat → ℚ) :
    List Nat → List HybridResult × List String → List HybridResult × List String
  | [], acc => acc
  | idx :: rest, acc => bm25Merge docs score rest (bm25Step docs score acc idx)

/-- `bm25_scores.argsort()[::-1]`: the corpus indices in descending
score order. -/
def argsortDesc (score : Nat → ℚ) (n : Nat) : List Nat :=
  (List.range n).insertionSort (fun i j => score j ≤ score i)

/-- `RAGEngine._hybrid_search`: vector results plus deduplicated
positive-score BM25 results over the non-empty stored documents; `[]`
when the lexical corpus is empty (the `else` branch) or when the whole
body raised (the `except` branch, e.g. a vector-store failure). -/
def hybridSearch (coll : Collection) (vecE : Except String (List VectorHit))
    (score : Nat → ℚ) (top_k : Nat) : List HybridResult :=
  match vecE with
  | Except.error _ => []
  | Except.ok vhits =>
    let all_documents := (coll.map (fun c => c.document)).filter (fun d => d != "")
    if all_documents.isEmpty then []
    else
      (bm25Merge all_documents score
        ((argsortDesc score all_documents.length).take top_k)
        (vectorResults vhits, vectorSeenIds vhits)).1

/-! ### Re-ranking (`RAGEngine._rerank_results`, lines 210-239)

The cross-encoder is an oracle `ce : String → String → ℚ` giving the
score of a (query, text) pair; `ceFails` models `predict` raising.
Python's stable `sort(key=..., reverse=True)` is a stable descending
sort, here `insertionSort` with the reflexive descending relation. -/

/-- Mutation of one result dict in the scoring loop: attach
`rerank_score` and `combined_score = 0.5*score + 0.5*rerank_score`. -/
def annotateRerank (ce : String → String → ℚ) (query : String) (r : HybridResult) :
    HybridResult :=
  { r with rerank_score := some (ce query r.text),
           combined_score := some (r.score * (1 / 2) + ce query r.text * (1 / 2)) }

/-- The sort key `x["combined_score"]` (total on annotated results). -/
def combinedKey (r : HybridResult) : ℚ := r.combined_score.getD 0

/-- `RAGEngine._rerank_results`: empty in, empty out; on a scoring
failure the original list truncated to `top_k`; otherwise the annotated
list sorted by combined score descending and truncated to `top_k`. -/
def rerankResults (ce : String → String → ℚ) (ceFails : Bool) (query : String)
    (results : List HybridResult) (top_k : Nat) : List HybridResult :=
  if results.isEmpty then []
  else if ceFails then results.take top_k
  else
    ((results.map (annotateRerank ce query)).insertionSort
      (fun a b => combinedKey b ≤ combinedKey a)).take top_k

/-! ### Context building and grounded generation
(`RAGEngine._build_context` lines 241-267, `RAGEngine.generate_answer`
lines 269-314)

`fmt` abstracts the f-string float formatting `f"{x:.3f}"` of the
relevance marker (pure presentation; no claim depends on it).  A result
dict lacking the `combined_score` key (as the fallback branch of the
re-ranker leaves them) makes `result["combined_score"]` raise KeyError,
which `_build_context`'s handler turns into the empty context. -/

def buildParts (fmt : ℚ → String) : List HybridResult → Except Unit (List String)
  | [] => Except.ok []
  | r :: rs =>
    match r.combined_score with
    | none => Except.error ()
    | some c =>
      match buildParts fmt rs with
      | Except.error e => Except.error e
      | Except.ok rest =>
        Except.ok (("[Relevancia: " ++ fmt c ++ "]") :: r.text :: "---" :: rest)

def buildContext (fmt : ℚ → String) (coll : Collection)
    (vecE : Except String (List VectorHit)) (score : Nat → ℚ)
    (ce : String → String → ℚ) (ceFails : Bool) (query : String) (top_k : Nat) : String :=
  let hybrid := hybridSearch coll vecE score (top_k * 3)
  if hybrid.isEmpty then ""
  else
    match buildParts fmt (rerankResults ce ceFails query hybrid top_k) with
    | Except.error _ => ""
    | Except.ok parts => pyJoin "\n" parts

/-- `RAGEngine.generate_answer`: empty context short-circuits to the
canonical refusal; an LLM raise is caught by the method's handler and
returns the same refusal; a generated answer classified negative is
replaced by the same refusal; otherwise the stripped answer is
returned. -/
def generateAnswer (fmt : ℚ → String) (coll : Collection)
    (vecE : Except String (List VectorHit)) (score : Nat → ℚ)
    (ce : String → String → ℚ) (ceFails : Bool) (llmE : Except String String)
    (query : String) (top_k : Nat) : String :=
  let context := buildContext fmt coll vecE score ce ceFails query top_k
  if context = "" then "No lo sé"
  else
    match llmE with
    | Except.error _ => "No lo sé"
    | Except.ok resp =>
      let answer := pyStrip resp
      if ragIsNegativeResponse answer then "No lo sé" else answer

/-! ### Claim C7 -/

/-- C7: with a working scorer, re-ranking returns candidates each
carrying `combined_score = 0.5*raw + 0.5*rerank`, sorted by combined
score descending, truncated to `top_k` (its length is
`min top_k |input|`); if scoring fails, the candidates come back in
original order truncated to `top_k`; in both modes a non-empty input
with positive `top_k` never yields an empty result. -/
theorem rerank_contract (ce : String → String → ℚ) (query : String)
    (results : List HybridResult) (top_k : Nat) :
    (∀ r ∈ rerankResults ce false query results top_k,
        ∃ r0 ∈ results, r = annotateRerank ce query r0
          ∧ r.combined_score = some (r0.score * (1 / 2) + ce query r0.text * (1 / 2)))
    ∧ List.Sorted (fun a b => combinedKey b ≤ combinedKey a)
        (rerankResults ce false query results top_k)
    ∧ (rerankResults ce false query results top_k).length = min top_k results.length
    ∧ rerankResults ce true query results top_k = results.take top_k
    ∧ (results ≠ [] → 0 < top_k →
        rerankResults ce false query results top_k ≠ []
        ∧ rerankResults ce true query results top_k ≠ []) := by
  haveI ht : IsTotal HybridResult (fun a b => combinedKey b ≤ combinedKey a) :=
    ⟨fun a b => le_total (combinedKey b) (combinedKey a)⟩
  haveI htr : IsTrans HybridResult (fun a b => combinedKey b ≤ combinedKey a) :=
    ⟨fun a b c hab hbc => le_trans hbc hab⟩
  by_cases hres : results.isEmpty = true
  · have hnil : results = [] := List.isEmpty_iff.mp hres
    subst hnil
    refine ⟨?_, ?_, ?_, ?_, ?_⟩
    · intro r hr; simp [rerankResults] at hr
    · simp [rerankResults]
    · simp [rerankResults]
    · simp [rerankResults]
    · intro h; exact absurd rfl h
  · have hfalse : results.isEmpty = false := Bool.eq_false_iff.mpr hres
    have heq : rerankResults ce false query results top_k
        = ((results.map (annotateRerank ce query)).insertionSort
            (fun a b => combinedKey b ≤ combinedKey a)).take top_k := by
      simp [rerankResults, hfalse]
    have heqT : rerankResults ce true query results top_k = results.take top_k := by
      simp [rerankResults, hfalse]
    have hlen : (rerankResults ce false query results top_k).length
        = min top_k results.length := by
      rw [heq, List.length_take, List.length_insertionSort, List.length_map]
    refine ⟨?_, ?_, hlen, heqT, ?_⟩
    · intro r hr
      rw [heq] at hr
      have hr2 := List.mem_of_mem_take hr
      rw [List.mem_insertionSort] at hr2
      rcases List.mem_map.mp hr2 with ⟨r0, hr0, rfl⟩
      exact ⟨r0, hr0, rfl, rfl⟩
    · rw [heq]
      exact List.Pairwise.sublist (List.take_sublist _ _)
        (List.sorted_insertionSort _ (results.map (annotateRerank ce query)))
    · intro hne hk
      have hpos : 0 < min top_k results.length := lt_min hk (List.length_pos.mpr hne)
      constructor
      · exact List.ne_nil_of_length_pos (by rw [hlen]; exact hpos)
      · refine List.ne_nil_of_length_pos ?_
        rw [heqT, List.length_take]
        exact hpos

/-- Witness for C7's non-emptiness guarantees at a one-candidate
input. -/
theorem rerank_contract_witness :
    rerankResults (fun _ _ => (1 : ℚ)) false "q"
        [HybridResult.mk "t" [] 1 "vector" none none] 3 ≠ []
    ∧ rerankResults (fun _ _ => (1 : ℚ)) true "q"
        [HybridResult.mk "t" [] 1 "vector" none none] 3 ≠ [] :=
  (rerank_contract (fun _ _ => (1 : ℚ)) "q"
      [HybridResult.mk "t" [] 1 "vector" none none] 3).2.2.2.2
    (List.cons_ne_nil _ _) (by decide)

/-! ### Claim C8 -/

theorem vectorSeenIds_eq (vhits : List VectorHit) :
    vectorSeenIds vhits = (vectorResults vhits).map (fun r => pyTake 100 r.text) := by
  unfold vectorResults vectorSeenIds
  rw [List.map_map]
  rfl

theorem vectorResults_rtype (vhits : List VectorHit) (r : HybridResult)
    (hr : r ∈ vectorResults vhits) : r.rtype = "vector" := by
  unfold vectorResults at hr
  rcases List.mem_map.mp hr with ⟨h, _, rfl⟩
  rfl

/-- Every result the BM25 loop appends (relative to whatever
accumulator it starts from) is of type `bm25`, has strictly positive
score, and has a content signature absent from the initial seen set. -/
theorem bm25Merge_sound (docs : List String) (score : Nat → ℚ) (idxs : List Nat)
    (acc : List HybridResult × List String) (r : HybridResult)
    (hr : r ∈ (bm25Merge docs score idxs acc).1) :
    r ∈ acc.1 ∨ (r.rtype = "bm25" ∧ 0 < r.score ∧ pyTake 100 r.text ∉ acc.2) := by
  induction idxs generalizing acc with
  | nil => exact Or.inl hr
  | cons idx rest ih =>
    simp only [bm25Merge] at hr
    cases hg : docs.get? idx with
    | none =>
      have hstep : bm25Step docs score acc idx = acc := by
        unfold bm25Step
        rw [hg]
      rw [hstep] at hr
      exact ih _ hr
    | some doc_text =>
      have hstep : bm25Step docs score acc idx
          = if (doc_text != "" && !(acc.2.contains (pyTake 100 doc_text))
                && decide (0 < score idx)) = true then
              (acc.1 ++ [HybridResult.mk doc_text
                 [("doc_id", "bm25_result"), ("chunk_type", "bm25")] (score idx) "bm25"
                 none none],
               acc.2 ++ [pyTake 100 doc_text])
            else acc := by
        unfold bm25Step
        rw [hg]
      rw [hstep] at hr
      by_cases hc : (doc_text != "" && !(acc.2.contains (pyTake 100 doc_text))
          && decide (0 < score idx)) = true
      · rw [if_pos hc] at hr
        rcases ih _ hr with hmem | hnew
        · rcases List.mem_append.mp hmem with h1 | h1
          · exact Or.inl h1
          · have hrEq : r = HybridResult.mk doc_text
                [("doc_id", "bm25_result"), ("chunk_type", "bm25")] (score idx) "bm25"
                none none := by simpa using h1
            subst hrEq
            have hparts := (Bool.and_eq_true _ _).mp hc
            have hmid := (Bool.and_eq_true _ _).mp hparts.1
            refine Or.inr ⟨rfl, of_decide_eq_true hparts.2, ?_⟩
            intro hmem2
            have hcon : acc.2.contains (pyTake 100 doc_text) = true :=
              List.elem_iff.mpr hmem2
            rw [hcon] at hmid
            simp at hmid
        · exact Or.inr ⟨hnew.1, hnew.2.1,
            fun hmem2 => hnew.2.2 (List.mem_append.mpr (Or.inl hmem2))⟩
      · rw [if_neg hc] at hr
        exact ih _ hr

/-- C8: when the vector hits come from the stored collection (as Chroma
guarantees) and the lexical corpus — the truthy stored documents — is
empty, hybrid search returns exactly the vector-only result set; and in
a non-empty corpus a lexical (BM25) candidate appears in the merged
output only with a strictly positive lexical score and a 100-character
content-prefix signature that duplicates no candidate of the vector
result set (whose signature list is `vectorSeenIds`). -/
theorem hybrid_contract (coll : Collection) (vhits : List VectorHit) (score : Nat → ℚ)
    (top_k : Nat)
    (hsrc : ∀ h ∈ vhits, h.document ∈ coll.map (fun c => c.document)) :
    (((coll.map (fun c => c.document)).filter (fun d => d != "")).isEmpty = true →
        hybridSearch coll (Except.ok vhits) score top_k = vectorResults vhits)
    ∧ (∀ r ∈ hybridSearch coll (Except.ok vhits) score top_k, r.rtype = "bm25" →
        0 < r.score ∧ pyTake 100 r.text ∉ vectorSeenIds vhits)
    ∧ vectorSeenIds vhits = (vectorResults vhits).map (fun r => pyTake 100 r.text) := by
  refine ⟨?_, ?_, vectorSeenIds_eq vhits⟩
  · intro hempty
    have hnil : (coll.map (fun c => c.document)).filter (fun d => d != "") = [] :=
      List.isEmpty_iff.mp hempty
    have hvec : vectorResults vhits = [] := by
      unfold vectorResults
      rw [List.map_eq_nil_iff, List.filter_eq_nil_iff]
      intro h hmem
      have hd := hsrc h hmem
      have hdoc : ¬((h.document != "") = true) := List.filter_eq_nil_iff.mp hnil _ hd
      simp only [Bool.not_eq_true] at hdoc
      simp [hdoc]
    simp only [hybridSearch, hempty, if_true, hvec]
  · intro r hr hbm
    simp only [hybridSearch] at hr
    by_cases hempty : ((coll.map (fun c => c.document)).filter (fun d => d != "")).isEmpty
        = true
    · rw [if_pos hempty] at hr
      simp at hr
    · rw [if_neg hempty] at hr
      rcases bm25Merge_sound _ score _ _ r hr with hmem | hnew
      · rw [vectorResults_rtype vhits r hmem] at hbm
        exact absurd hbm (by decide)
      · exact ⟨hnew.2.1, hnew.2.2⟩

/-- Witness for C8 at a one-document collection with one matching
vector hit. -/
theorem hybrid_contract_witness :
    ((([ChromaEntry.mk "c1" "texto del contrato" []].map
          (fun c => c.document)).filter (fun d => d != "")).isEmpty = true →
        hybridSearch [ChromaEntry.mk "c1" "texto del contrato" []]
          (Except.ok [VectorHit.mk "texto del contrato" [] (1 / 2)]) (fun _ => 1) 2
          = vectorResults [VectorHit.mk "texto del contrato" [] (1 / 2)])
    ∧ (∀ r ∈ hybridSearch [ChromaEntry.mk "c1" "texto del contrato" []]
          (Except.ok [VectorHit.mk "texto del contrato" [] (1 / 2)]) (fun _ => 1) 2,
        r.rtype = "bm25" →
        0 < r.score
        ∧ pyTake 100 r.text ∉ vectorSeenIds [VectorHit.mk "texto del contrato" [] (1 / 2)])
    ∧ vectorSeenIds [VectorHit.mk "texto del contrato" [] (1 / 2)]
        = (vectorResults [VectorHit.mk "texto del contrato" [] (1 / 2)]).map
            (fun r => pyTake 100 r.text) :=
  hybrid_contract [ChromaEntry.mk "c1" "texto del contrato" []]
    [VectorHit.mk "texto del contrato" [] (1 / 2)] (fun _ => 1) 2 (by decide)

/-! ### Claim C10 -/

/-- C10: the grounded generator is total (this embedding returns a
plain string for every oracle outcome, mirroring the `try/except` in
`generate_answer`); a retrieval failure (the vector query raising) or a
generation failure (the LLM call raising) makes it return exactly the
canonical refusal "No lo sé" — and a genuinely negative generated
answer produces the very same string, so the caller cannot tell an
internal failure from a legitimate "don't know". -/
theorem grounded_failures_return_refusal (fmt : ℚ → String) (coll : Collection)
    (vecE : Except String (List VectorHit)) (score : Nat → ℚ)
    (ce : String → String → ℚ) (ceFails : Bool) (llmE : Except String String)
    (query : String) (top_k : Nat) :
    (vecE.isOk = false ∨ llmE.isOk = false →
      generateAnswer fmt coll vecE score ce ceFails llmE query top_k = "No lo sé")
    ∧ (∀ a, llmE = Except.ok a → ragIsNegativeResponse (pyStrip a) = true →
        generateAnswer fmt coll vecE score ce ceFails llmE query top_k = "No lo sé") := by
  constructor
  · intro hfail
    cases vecE with
    | error e =>
      have hctx : buildContext fmt coll (Except.error e) score ce ceFails query top_k
          = "" := by
        simp [buildContext, hybridSearch]
      simp [generateAnswer, hctx]
    | ok vhits =>
      cases llmE with
      | error e2 =>
        by_cases hctx : buildContext fmt coll (Except.ok vhits) score ce ceFails query top_k
            = ""
        · simp [generateAnswer, hctx]
        · simp [generateAnswer, hctx]
      | ok a =>
        rcases hfail with h | h <;> simp [Except.isOk, Except.toBool] at h
  · intro a ha hneg
    subst ha
    by_cases hctx : buildContext fmt coll vecE score ce ceFails query top_k = ""
    · simp [generateAnswer, hctx]
    · simp [generateAnswer, hctx, hneg]

/-- Witness for C10: a raising vector store yields the canonical
refusal. -/
theorem grounded_failures_return_refusal_witness :
    generateAnswer (fun _ => "") [] (Except.error "boom") (fun _ => 0) (fun _ _ => 0)
      false (Except.ok "x") "q" 5 = "No lo sé" :=
  (grounded_failures_return_refusal (fun _ => "") [] (Except.error "boom") (fun _ => 0)
      (fun _ _ => 0) false (Except.ok "x") "q" 5).1 (Or.inl rfl)

end ChatbotCag
